import Mathlib

/-!
Verification of the round-based consensus skill of the learning service.

The transition topology (`Event`, `coincapRound`, `CoincapAbciApp`) and the
behaviour logic (`DataPullBehaviour.get_token_holders`,
`DecisionMakingBehaviour`, `TxPreparationBehaviour`) are embedded from
`src/packages/valory/skills/ether_rate_abci/rounds.py` and
`src/packages/valory/skills/learning_abci/behaviours.py`.

The quorum-aggregation machinery (`CollectSameUntilThresholdRound`), the
synchronized-data store and the round-sequence driver live in the
`abstract_round_abci` framework package, which is not part of the excerpt;
those are modelled from the specification (each such definition carries a
doc comment saying so).
-/

namespace LearningService

/-- Events of `LearningAbciApp`, from `ether_rate_abci/rounds.py` (`class Event`):
DONE, ERROR, TRANSACT, NO_MAJORITY, ROUND_TIMEOUT. -/
inductive Event where
  | DONE
  | ERROR
  | TRANSACT
  | NO_MAJORITY
  | ROUND_TIMEOUT
deriving DecidableEq, Repr, Fintype

/-- Round kinds of `CoincapAbciApp`, from `ether_rate_abci/rounds.py`:
`coincapRound` (a `CollectSameUntilThresholdRound`) and
`FinishedCoincapRound` (a `DegenerateRound`). -/
inductive RoundKind where
  | coincapRound
  | FinishedCoincapRound
deriving DecidableEq, Repr, Fintype

/-- The app's `initial_round_cls = coincapRound`. -/
def initial_round_cls : RoundKind := RoundKind.coincapRound

/-- The app's `final_states`, the singleton `FinishedCoincapRound`. -/
def final_states : List RoundKind := [RoundKind.FinishedCoincapRound]

/-- The app's `transition_function`, embedded entry for entry from
`ether_rate_abci/rounds.py` lines 148-155:
`coincapRound: {NO_MAJORITY: coincapRound, ROUND_TIMEOUT: coincapRound,
DONE: FinishedCoincapRound}`, `FinishedCoincapRound: {}`.
`none` is an absent entry (an `InvalidTransition` on lookup). -/
def transition_function : RoundKind → Event → Option RoundKind
  | RoundKind.coincapRound, Event.NO_MAJORITY => some RoundKind.coincapRound
  | RoundKind.coincapRound, Event.ROUND_TIMEOUT => some RoundKind.coincapRound
  | RoundKind.coincapRound, Event.DONE => some RoundKind.FinishedCoincapRound
  | _, _ => none

/-- The events a round kind can produce.  `coincapRound` declares
`done_event = Event.DONE` and `no_majority_event = Event.NO_MAJORITY`
(`rounds.py` lines 119-120) and the framework can synthesize
`Event.ROUND_TIMEOUT` for a pending round (referenced at line 131).
A `DegenerateRound` produces no events. -/
def producible_events : RoundKind → List Event
  | RoundKind.coincapRound => [Event.DONE, Event.NO_MAJORITY, Event.ROUND_TIMEOUT]
  | RoundKind.FinishedCoincapRound => []

/-- Round kinds reachable from the initial round by following
`transition_function` edges. -/
inductive Reachable : RoundKind → Prop where
  | initial : Reachable initial_round_cls
  | step {k k₂ : RoundKind} {e : Event} :
      Reachable k → transition_function k e = some k₂ → Reachable k₂

section Quorum

variable {V : Type} [DecidableEq V]

/-- A participant identifier (agent address). -/
abbrev Sender := Nat

/-- A payload: one participant's contribution to a round instance
(sender plus round-specific value).  Mirrors `coincapPayload`
(a sender and a `rateUSD` value, cf. `selection_key` in `rounds.py`). -/
structure Payload (V : Type) where
  sender : Sender
  value : V
deriving DecidableEq, Repr

/-- Errors `add_payload` can reject with. -/
inductive PayloadError where
  | DuplicatePayload
deriving DecidableEq, Repr

/-- The `collected` map of a round instance: sender-keyed association list. -/
abbrev Collected (V : Type) := List (Sender × V)

/-- Modelled from the spec: `CollectSameUntilThresholdRound.add_payload`
(framework code absent from the excerpt), spec §4.1 — fails with
`DuplicatePayload` if the sender already has an entry differing from this
one, otherwise stores the payload, idempotent on exact resubmission. -/
def add_payload (c : Collected V) (p : Payload V) :
    Except PayloadError (Collected V) :=
  match c.lookup p.sender with
  | some v => if v = p.value then Except.ok c
              else Except.error PayloadError.DuplicatePayload
  | none => Except.ok (c ++ [(p.sender, p.value)])

/-- Number of distinct senders in `c` whose payload value equals `v`
(each sender has at most one entry, so this counts entries). -/
def count_value (c : Collected V) (v : V) : Nat :=
  (c.filter (fun e => e.2 = v)).length

/-- Outcome of examining a round's `collected` map. -/
inductive Outcome (V : Type) where
  | DONE (v : V)
  | NO_MAJORITY
  | Pending
deriving DecidableEq, Repr

/-- Modelled from the spec: `CollectSameUntilThresholdRound.try_conclude`
(framework code absent from the excerpt), spec §4.1 — groups payloads by
value; if any group's distinct-sender count reaches `threshold`, the round
is DONE with that value; if all `n` participants submitted and none did,
NO_MAJORITY; otherwise Pending. -/
def try_conclude (threshold n : Nat) (c : Collected V) : Outcome V :=
  match c.find? (fun e => threshold ≤ count_value c e.2) with
  | some e => Outcome.DONE e.2
  | none => if c.length = n then Outcome.NO_MAJORITY else Outcome.Pending

/-- Fold a list of submitted payloads into a round's `collected` map,
dropping rejected (duplicate) submissions — the first stands. -/
def build_collected (ps : List (Payload V)) : Collected V :=
  ps.foldl (fun c p => match add_payload c p with
    | Except.ok c₂ => c₂
    | Except.error _ => c) []

end Quorum

section Driver

variable {V : Type} [DecidableEq V]

/-- Modelled from the spec: the replicated `SynchronizedData` store
(framework `BaseSynchronizedData`/`AbciAppDB`, absent from the excerpt),
spec §3 — a version counter and a key-value entry map with
append/overwrite semantics. -/
structure SData (V : Type) where
  version : Nat
  entries : List (String × V)
deriving DecidableEq, Repr

/-- Modelled from the spec: committing a round's selected outputs
(spec §3: each round transition produces a new version derived from the
previous one plus the round's selected outputs; §4.1: the caller applies
the resulting SynchronizedData transactionally). New bindings shadow old
ones (overwrite); no key is ever dropped. -/
def commit (d : SData V) (outs : List (String × V)) : SData V :=
  { version := d.version + 1, entries := outs ++ d.entries }

/-- The `selection_key` of `coincapRound`: `get_name(SynchronizedData.rateUSD)`
(`rounds.py` line 129) — where the agreed value is stored on DONE. -/
def selection_key : String := "rateUSD"

/-- Modelled from the spec: `try_conclude` with the synchronized data it
returns (spec §4.1): DONE yields the data with the agreed value committed
under the round's selection key, NO_MAJORITY yields the data unchanged,
Pending yields no conclusion (data untouched). -/
def try_conclude_data (t n : Nat) (c : Collected V) (d : SData V) :
    Outcome V × SData V :=
  match try_conclude t n c with
  | Outcome.DONE v => (Outcome.DONE v, commit d [(selection_key, v)])
  | Outcome.NO_MAJORITY => (Outcome.NO_MAJORITY, d)
  | Outcome.Pending => (Outcome.Pending, d)

/-- Modelled from the spec: the Round Sequence runtime state (spec §3/§4.3)
— the active round kind, its `collected` map, the synchronized data,
and the history of `(kind, event)` transitions taken so far. -/
structure SeqState (V : Type) where
  kind : RoundKind
  collected : Collected V
  data : SData V
  trace : List (RoundKind × Event)
deriving DecidableEq, Repr

/-- Modelled from the spec: one `deliver(payload)` step of the Round
Sequence (spec §4.3, framework code absent from the excerpt): route the
payload to the active round's `add_payload`, then `try_conclude`; on
conclusion commit the new SynchronizedData, look up the next round kind
and instantiate a fresh round of that kind (empty `collected`, nothing
carried over). A final (degenerate) round stops the sequence; a rejected
payload leaves the state unchanged, the first submission stands. -/
inductive Deliver (t n : Nat) : SeqState V → Payload V → SeqState V → Prop where
  | final {s : SeqState V} {p : Payload V} :
      s.kind ∈ final_states → Deliver t n s p s
  | rejected {s : SeqState V} {p : Payload V} {err : PayloadError} :
      s.kind ∉ final_states →
      add_payload s.collected p = Except.error err →
      Deliver t n s p s
  | pending {s : SeqState V} {p : Payload V} {c₂ : Collected V} :
      s.kind ∉ final_states →
      add_payload s.collected p = Except.ok c₂ →
      try_conclude t n c₂ = Outcome.Pending →
      Deliver t n s p { s with collected := c₂ }
  | done {s : SeqState V} {p : Payload V} {c₂ : Collected V} {v : V}
      {k₂ : RoundKind} :
      s.kind ∉ final_states →
      add_payload s.collected p = Except.ok c₂ →
      try_conclude t n c₂ = Outcome.DONE v →
      transition_function s.kind Event.DONE = some k₂ →
      Deliver t n s p
        { kind := k₂, collected := [],
          data := commit s.data [(selection_key, v)],
          trace := s.trace ++ [(s.kind, Event.DONE)] }
  | no_majority {s : SeqState V} {p : Payload V} {c₂ : Collected V}
      {k₂ : RoundKind} :
      s.kind ∉ final_states →
      add_payload s.collected p = Except.ok c₂ →
      try_conclude t n c₂ = Outcome.NO_MAJORITY →
      transition_function s.kind Event.NO_MAJORITY = some k₂ →
      Deliver t n s p
        { kind := k₂, collected := [],
          data := commit s.data [],
          trace := s.trace ++ [(s.kind, Event.NO_MAJORITY)] }

/-- A run of the Round Sequence: deliver an ordered payload history
from a starting state. -/
inductive Run (t n : Nat) : SeqState V → List (Payload V) → SeqState V → Prop where
  | nil {s : SeqState V} : Run t n s [] s
  | cons {s s₁ s₂ : SeqState V} {p : Payload V} {ps : List (Payload V)} :
      Deliver t n s p s₁ → Run t n s₁ ps s₂ → Run t n s (p :: ps) s₂

end Driver

section Behaviours

/-- Constant `HTTP_OK = 200` (`behaviours.py` line 74). -/
def HTTP_OK : Nat := 200

/-- An HTTP response as seen by `get_token_holders`: the status code, and
the value of `int(json.loads(response.body)["holders"])` when the body is
valid JSON with an integer `holders` field (`none` means `json.loads` or
the `"holders"` lookup raises for that body). -/
structure HttpResponse where
  status_code : Nat
  body_holders : Option Nat
deriving DecidableEq, Repr

/-- The dictionary returned by `get_token_holders`:
`holders = {"arbitrum": 0, "base": 0}` updated per network. -/
structure TokenHolders where
  arbitrum : Nat
  base : Nat
deriving DecidableEq, Repr

/-- One iteration of the `for network, url in urls.items()` loop in
`DataPullBehaviour.get_token_holders` (`behaviours.py` lines 213-228):
a non-200 status logs and `continue`s, leaving the default in place;
a 200 status parses the body, which raises if the body is not valid
JSON with a `holders` field. -/
def fetch_network_holders (default : Nat) (response : HttpResponse) :
    Except Unit Nat :=
  if response.status_code ≠ HTTP_OK then Except.ok default
  else
    match response.body_holders with
    | some h => Except.ok h
    | none => Except.error ()

/-- Embeds `DataPullBehaviour.get_token_holders` (`behaviours.py` lines 201-230):
starts from `{"arbitrum": 0, "base": 0}`, fetches arbitrum then base.
`Except.error` models an uncaught exception escaping the generator
(the function body has no try/except around `json.loads`). -/
def get_token_holders (arb base : HttpResponse) : Except Unit TokenHolders := do
  let a ← fetch_network_holders 0 arb
  let b ← fetch_network_holders 0 base
  Except.ok { arbitrum := a, base := b }

/-- Embeds `DecisionMakingBehaviour.determine_winner_and_prize`
(`behaviours.py` lines 400-430). The Python code computes the prize via a
float multiplier `holder_difference / 1000` and truncates with `int(...)`;
this is modelled as truncated integer division, which agrees with the code
on the branch structure and on the sign of the product — the only facts
used below. -/
def determine_winner_and_prize (arbitrum_holders base_holders : Int)
    (bet_details : List Int) : String × Int :=
  let user_choice := bet_details.getD 0 0
  let bet_amount := bet_details.getD 1 0
  let user_selected := if user_choice = 1 then "arbitrum" else "base"
  let actual_winner :=
    if arbitrum_holders > base_holders then "arbitrum" else "base"
  let result := if user_selected = actual_winner then "win" else "lose"
  let holder_difference := (arbitrum_holders - base_holders).natAbs
  let prize_amount :=
    if result = "win" then Int.tdiv (bet_amount * holder_difference) 1000 else 0
  (result, prize_amount)

/-- The `DecisionMakingPayload` as constructed in
`DecisionMakingBehaviour.async_act` (sender, event value, result,
prize amount). -/
structure DecisionMakingPayload where
  sender : Sender
  event : Event
  result : String
  prize_amount : Int
deriving DecidableEq, Repr

/-- The local step of `DecisionMakingBehaviour.async_act`
(`behaviours.py` lines 367-398): if the IPFS fetch of the bet details
failed (`none`), an ERROR payload with result "lose" and prize 0 is built;
otherwise the payload carries TRANSACT when `prize_amount > 0` and DONE
otherwise. In both branches a payload is produced and submitted. -/
def decision_making_act (sender : Sender) (arbitrum_holders base_holders : Int)
    (bet_details : Option (List Int)) : DecisionMakingPayload :=
  match bet_details with
  | none =>
      { sender := sender, event := Event.ERROR, result := "lose",
        prize_amount := 0 }
  | some bd =>
      let rp := determine_winner_and_prize arbitrum_holders base_holders bd
      { sender := sender,
        event := if rp.2 > 0 then Event.TRANSACT else Event.DONE,
        result := rp.1, prize_amount := rp.2 }

/-- The `TxPreparationPayload` (sender and tx hash). -/
structure TxPreparationPayload where
  sender : Sender
  tx_hash : String
deriving DecidableEq, Repr

/-- The outcomes of the collaborator calls made by
`TxPreparationBehaviour.async_act`, in call order; `none` is a failure
(parse error, wrong performative, or a helper returning `None`). -/
structure TxPrepOutcomes where
  prize_amount_parsed : Option Int
  prize_tx : Option Unit
  resolve_tx : Option Unit
  multisend_data : Option String
  safe_tx_hash : Option String
deriving DecidableEq, Repr

/-- Embeds `TxPreparationBehaviour.async_act` (`behaviours.py` lines 440-509):
every failure branch logs an error and `return None`s out of the
generator, so no payload is built and `send_a2a_transaction` is never
reached (`none` result). Only when every collaborator call succeeds is a
`TxPreparationPayload` built and submitted. -/
def tx_preparation_act (sender : Sender) (o : TxPrepOutcomes) :
    Option TxPreparationPayload :=
  match o.prize_amount_parsed with
  | none => none
  | some pa =>
    if pa < 0 then none
    else
      match o.prize_tx with
      | none => none
      | some _ =>
        match o.resolve_tx with
        | none => none
        | some _ =>
          match o.multisend_data with
          | none => none
          | some _ =>
            match o.safe_tx_hash with
            | none => none
            | some h => some { sender := sender, tx_hash := h }

end Behaviours

section QuorumLemmas

variable {V : Type} [DecidableEq V]

variable {K : Type} [BEq K] [LawfulBEq K] [DecidableEq K]

lemma lookup_cons_eq (a k : K) (v : V) (es : List (K × V)) :
    ((k, v) :: es).lookup a = if a = k then some v else es.lookup a := by
  rw [List.lookup_cons]
  cases hbe : a == k
  · have h : ¬a = k := by simpa using hbe
    simp [h]
  · have h : a = k := by simpa using hbe
    simp [h]

lemma lookup_append_or (a : K) (l₁ l₂ : List (K × V)) :
    (l₁ ++ l₂).lookup a = (l₁.lookup a).or (l₂.lookup a) := by
  induction l₁ with
  | nil => simp [List.lookup]
  | cons e es ih =>
      rcases e with ⟨k, v⟩
      rw [List.cons_append, lookup_cons_eq, lookup_cons_eq]
      by_cases h : a = k <;> simp [h, ih]

lemma lookup_eq_none_iff (a : K) (c : List (K × V)) :
    c.lookup a = none ↔ a ∉ c.map Prod.fst := by
  induction c with
  | nil => simp [List.lookup]
  | cons e es ih =>
      rcases e with ⟨k, v⟩
      rw [lookup_cons_eq]
      by_cases h : a = k <;> simp [h, ih]

/-- After a successful `add_payload`, the sender's stored value is the
payload's value. -/
lemma lookup_after_add {c c₂ : Collected V} {p : Payload V}
    (h : add_payload c p = Except.ok c₂) :
    c₂.lookup p.sender = some p.value := by
  unfold add_payload at h
  split at h
  · rename_i v heq
    split at h
    · rename_i hv
      cases h
      rw [heq, hv]
    · simp at h
  · rename_i heq
    cases h
    rw [lookup_append_or, heq]
    simp [lookup_cons_eq]

/-- Adding a payload preserves distinctness of the sender keys. -/
lemma add_payload_nodup {c c₂ : Collected V} {p : Payload V}
    (hc : (c.map Prod.fst).Nodup) (h : add_payload c p = Except.ok c₂) :
    (c₂.map Prod.fst).Nodup := by
  unfold add_payload at h
  split at h
  · rename_i v heq
    split at h
    · cases h
      exact hc
    · simp at h
  · rename_i heq
    cases h
    have hns : p.sender ∉ c.map Prod.fst := (lookup_eq_none_iff _ _).mp heq
    simp only [List.map_append, List.map_cons, List.map_nil]
    rw [List.nodup_append]
    refine ⟨hc, List.nodup_singleton _, ?_⟩
    intro a ha hb
    simp only [List.mem_singleton] at hb
    exact hns (hb ▸ ha)

/-- Sender keys of any collected map built from a payload history are
distinct: each sender holds at most one entry. -/
lemma build_collected_nodup (ps : List (Payload V)) :
    ((build_collected ps).map Prod.fst).Nodup := by
  unfold build_collected
  suffices h : ∀ (c : Collected V), (c.map Prod.fst).Nodup →
      ((ps.foldl (fun c p => match add_payload c p with
        | Except.ok c₂ => c₂
        | Except.error _ => c) c).map Prod.fst).Nodup by
    exact h [] (by simp)
  induction ps with
  | nil => intro c hc; exact hc
  | cons p ps ih =>
      intro c hc
      simp only [List.foldl_cons]
      rcases ha : add_payload c p with err | c₂
      · exact ih c hc
      · exact ih c₂ (add_payload_nodup hc ha)

end QuorumLemmas

section ClaimC5

variable {V : Type} [DecidableEq V]

/-- C5: After a first payload from a sender is stored, resubmitting the
exact same payload is a no-op (`add_payload` succeeds returning the same
map); submitting a payload with a different value from the same sender is
rejected with `DuplicatePayload` while the first payload still stands
(the sender's stored value is unchanged); and in every reachable state —
any map built from a payload history — each sender has at most one entry. -/
theorem payload_idempotence_uniqueness (V : Type) [DecidableEq V] :
    (∀ (c c₂ : Collected V) (p : Payload V),
        add_payload c p = Except.ok c₂ → add_payload c₂ p = Except.ok c₂) ∧
    (∀ (c c₂ : Collected V) (p q : Payload V),
        add_payload c p = Except.ok c₂ → q.sender = p.sender →
        q.value ≠ p.value →
        add_payload c₂ q = Except.error PayloadError.DuplicatePayload ∧
        c₂.lookup q.sender = some p.value) ∧
    (∀ ps : List (Payload V), ((build_collected ps).map Prod.fst).Nodup) := by
  refine ⟨?_, ?_, build_collected_nodup⟩
  · intro c c₂ p h
    have hl := lookup_after_add h
    unfold add_payload
    rw [hl]
    simp
  · intro c c₂ p q h hs hv
    have hl := lookup_after_add h
    rw [← hs] at hl
    constructor
    · unfold add_payload
      rw [hl]
      have hv' : ¬p.value = q.value := fun hh => hv hh.symm
      simp [hv']
    · exact hl

/-- Concrete instance of C5: sender 0 stores value 7; resubmitting
`(0, 7)` is a no-op and submitting `(0, 8)` is rejected with the first
standing. -/
theorem payload_idempotence_uniqueness_witness :
    add_payload ([(0, 7)] : Collected Nat) ⟨0, 7⟩ = Except.ok [(0, 7)] ∧
    (add_payload ([(0, 7)] : Collected Nat) ⟨0, 8⟩ =
        Except.error PayloadError.DuplicatePayload ∧
      ([(0, 7)] : Collected Nat).lookup 0 = some 7) :=
  ⟨(payload_idempotence_uniqueness Nat).1 [] [(0, 7)] ⟨0, 7⟩ rfl,
   (payload_idempotence_uniqueness Nat).2.1 [] [(0, 7)] ⟨0, 7⟩ ⟨0, 8⟩
     rfl rfl (by decide)⟩

end ClaimC5

section ClaimC3

/-- C3: Every `(round kind, event)` pair that is actually producible from a
round kind reachable from the initial round — the events the round can
emit plus the timeout event — has an entry in the transition map, and
every terminal (degenerate) round kind has no outgoing edges; the
next-round lookup therefore never fails on a producible pair. -/
theorem transition_map_total_on_producible (k : RoundKind)
    (hk : Reachable k) :
    (∀ e ∈ producible_events k, (transition_function k e).isSome) ∧
    (∀ kf ∈ final_states, ∀ e, transition_function kf e = none) := by
  constructor
  · cases k <;> decide
  · decide

/-- Concrete instance of C3 at the initial round kind. -/
theorem transition_map_total_on_producible_witness :
    (∀ e ∈ producible_events RoundKind.coincapRound,
        (transition_function RoundKind.coincapRound e).isSome) ∧
    (∀ kf ∈ final_states, ∀ e, transition_function kf e = none) :=
  transition_map_total_on_producible RoundKind.coincapRound Reachable.initial

end ClaimC3

section ClaimC6

/-- C6: In the transition map, `NO_MAJORITY` and `ROUND_TIMEOUT` from the
data-collection round (`coincapRound`) lead back to the same round kind
and `DONE` leads to the final round kind; and whenever a deliver step
concludes the active round (the trace grows), the newly instantiated
round is fresh — its collected map is empty, no payloads carried over. -/
theorem retry_same_round_done_final {V : Type} [DecidableEq V] (t n : Nat)
    (s s' : SeqState V) (p : Payload V) (hd : Deliver t n s p s')
    (hconc : s'.trace ≠ s.trace) :
    transition_function RoundKind.coincapRound Event.NO_MAJORITY =
      some RoundKind.coincapRound ∧
    transition_function RoundKind.coincapRound Event.ROUND_TIMEOUT =
      some RoundKind.coincapRound ∧
    transition_function RoundKind.coincapRound Event.DONE =
      some RoundKind.FinishedCoincapRound ∧
    s'.collected = [] := by
  refine ⟨rfl, rfl, rfl, ?_⟩
  cases hd with
  | final _ => exact absurd rfl hconc
  | rejected _ _ => exact absurd rfl hconc
  | pending _ _ _ => exact absurd rfl hconc
  | done _ _ _ _ => rfl
  | no_majority _ _ _ _ => rfl

/-- Concrete instance of C6: with threshold 1 and one participant, a first
payload concludes `coincapRound` with DONE and a fresh empty
`FinishedCoincapRound` instance is installed. -/
theorem retry_same_round_done_final_witness :
    transition_function RoundKind.coincapRound Event.NO_MAJORITY =
      some RoundKind.coincapRound ∧
    transition_function RoundKind.coincapRound Event.ROUND_TIMEOUT =
      some RoundKind.coincapRound ∧
    transition_function RoundKind.coincapRound Event.DONE =
      some RoundKind.FinishedCoincapRound ∧
    ({ kind := RoundKind.FinishedCoincapRound, collected := [],
       data := commit { version := 0, entries := [] } [(selection_key, 5)],
       trace := [(RoundKind.coincapRound, Event.DONE)] } :
        SeqState Nat).collected = [] :=
  retry_same_round_done_final 1 1
    { kind := RoundKind.coincapRound, collected := [],
      data := { version := 0, entries := [] }, trace := [] }
    { kind := RoundKind.FinishedCoincapRound, collected := [],
      data := commit { version := 0, entries := [] } [(selection_key, 5)],
      trace := [(RoundKind.coincapRound, Event.DONE)] }
    ⟨0, 5⟩
    (Deliver.done (by decide) rfl rfl rfl)
    (by decide)

end ClaimC6

section ClaimC9

/-- C9: `determine_winner_and_prize` returns prize 0 whenever the result
is "lose" (so a positive prize implies result "win"); the
`DecisionMakingPayload` built in the non-error path carries TRANSACT iff
the computed prize is strictly positive and DONE otherwise; and the error
path (bet details unavailable) yields an ERROR payload with result "lose"
and prize 0. -/
theorem decision_prize_event_consistency (s : Sender) (a b : Int)
    (bd : List Int) :
    ((determine_winner_and_prize a b bd).1 = "lose" →
      (determine_winner_and_prize a b bd).2 = 0) ∧
    (0 < (determine_winner_and_prize a b bd).2 →
      (determine_winner_and_prize a b bd).1 = "win") ∧
    ((decision_making_act s a b (some bd)).event = Event.TRANSACT ↔
      0 < (determine_winner_and_prize a b bd).2) ∧
    ((decision_making_act s a b (some bd)).event = Event.DONE ↔
      ¬0 < (determine_winner_and_prize a b bd).2) ∧
    decision_making_act s a b none =
      { sender := s, event := Event.ERROR, result := "lose",
        prize_amount := 0 } := by
  unfold decision_making_act determine_winner_and_prize
  dsimp only
  split_ifs <;> simp_all

/-- Concrete instance of C9: the bettor chose arbitrum, arbitrum has more
holders, the prize `2000 * 2 / 1000 = 4` is positive, so the payload
carries TRANSACT; and the error path yields (ERROR, "lose", 0). -/
theorem decision_prize_event_consistency_witness :
    (decision_making_act 0 5 3 (some [1, 2000])).event = Event.TRANSACT ∧
    decision_making_act 0 5 3 none =
      { sender := 0, event := Event.ERROR, result := "lose",
        prize_amount := 0 } :=
  ⟨(decision_prize_event_consistency 0 5 3 [1, 2000]).2.2.1.mpr (by decide),
   (decision_prize_event_consistency 0 5 3 [1, 2000]).2.2.2.2⟩

end ClaimC9

section ClaimC2

/-- C2 counterexample: one collaborator failure inside
`TxPreparationBehaviour.async_act` — `get_prize_transfer_tx` returning
`None` while every other call would succeed — makes the behaviour
`return None` without submitting any payload, contradicting the claim
that no collaborator failure terminates the step without a payload. -/
theorem tx_preparation_abort_counterexample :
    tx_preparation_act 0
      { prize_amount_parsed := some 5, prize_tx := none,
        resolve_tx := some (), multisend_data := some "d",
        safe_tx_hash := some "h" } = none := rfl

/-- C2 (amended): `DecisionMakingBehaviour` converts its collaborator
failure (missing bet details) into a safe default ERROR/"lose"/0 payload
and always submits; `TxPreparationBehaviour`, in contrast, submits a
payload iff its prize amount parses to a nonnegative integer and every
collaborator call succeeds — any failure makes it terminate the act step
without submitting. -/
theorem behaviour_failure_handling (s : Sender) (a b : Int)
    (o : TxPrepOutcomes) :
    (decision_making_act s a b none).event = Event.ERROR ∧
    (decision_making_act s a b none).result = "lose" ∧
    (decision_making_act s a b none).prize_amount = 0 ∧
    ((tx_preparation_act s o).isSome ↔
      (∃ q, o.prize_amount_parsed = some q ∧ 0 ≤ q) ∧
      o.prize_tx.isSome ∧ o.resolve_tx.isSome ∧
      o.multisend_data.isSome ∧ o.safe_tx_hash.isSome) := by
  refine ⟨rfl, rfl, rfl, ?_⟩
  rcases o with ⟨pa, pt, rt, md, sh⟩
  rcases pa with _ | q
  · simp [tx_preparation_act]
  · rcases pt with _ | _ <;> rcases rt with _ | _ <;>
      rcases md with _ | d <;> rcases sh with _ | h <;>
      by_cases hq : q < 0 <;>
      simp [tx_preparation_act, hq] <;> omega

/-- Concrete instance of the amended C2: with every collaborator call
succeeding and a nonnegative prize, `TxPreparationBehaviour` submits. -/
theorem behaviour_failure_handling_witness :
    (tx_preparation_act 0
      { prize_amount_parsed := some 5, prize_tx := some (),
        resolve_tx := some (), multisend_data := some "d",
        safe_tx_hash := some "h" }).isSome :=
  (behaviour_failure_handling 0 0 0
    { prize_amount_parsed := some 5, prize_tx := some (),
      resolve_tx := some (), multisend_data := some "d",
      safe_tx_hash := some "h" }).2.2.2.mpr
    ⟨⟨5, rfl, by decide⟩, rfl, rfl, rfl, rfl⟩

end ClaimC2

section ClaimC10

/-- C10 counterexample: a 200-status response whose body does not parse
as JSON with an integer `holders` field makes `json.loads` (or the
`"holders"` access) raise, so `get_token_holders` does not return a
dictionary at all — refuting the claim for arbitrary HTTP responses. -/
theorem get_token_holders_raise_counterexample :
    get_token_holders { status_code := 200, body_holders := none }
      { status_code := 200, body_holders := some 5 } = Except.error () := rfl

/-- C10 (amended): provided every 200-status response body parses as JSON
with an integer `holders` field, `get_token_holders` returns a dictionary
that contains both the "arbitrum" and "base" keys (never None); for every
network whose response status is not 200 the count stays at the default
0, while the other network's count is still fetched. -/
theorem get_token_holders_total_on_parseable (a b : HttpResponse)
    (ha : a.status_code = HTTP_OK → a.body_holders.isSome)
    (hb : b.status_code = HTTP_OK → b.body_holders.isSome) :
    ∃ d : TokenHolders, get_token_holders a b = Except.ok d ∧
      (a.status_code ≠ HTTP_OK → d.arbitrum = 0) ∧
      (b.status_code ≠ HTTP_OK → d.base = 0) ∧
      (∀ h, a.status_code = HTTP_OK → a.body_holders = some h →
        d.arbitrum = h) ∧
      (∀ h, b.status_code = HTTP_OK → b.body_holders = some h →
        d.base = h) := by
  have fetch_spec : ∀ r : HttpResponse,
      (r.status_code = HTTP_OK → r.body_holders.isSome) →
      ∃ x, fetch_network_holders 0 r = Except.ok x ∧
        (r.status_code ≠ HTTP_OK → x = 0) ∧
        (∀ h, r.status_code = HTTP_OK → r.body_holders = some h → x = h) := by
    intro r hr
    unfold fetch_network_holders
    by_cases hs : r.status_code = HTTP_OK
    · rcases Option.isSome_iff_exists.mp (hr hs) with ⟨x, hx⟩
      refine ⟨x, ?_, fun hn => absurd hs hn, ?_⟩
      · simp [hs, hx]
      · intro h _ hh
        rw [hx] at hh
        exact Option.some.inj hh
    · exact ⟨0, by simp [hs], fun _ => rfl, fun h hs' _ => absurd hs' hs⟩
  rcases fetch_spec a ha with ⟨x, hxe, hx0, hxv⟩
  rcases fetch_spec b hb with ⟨y, hye, hy0, hyv⟩
  refine ⟨{ arbitrum := x, base := y }, ?_, hx0, hy0, hxv, hyv⟩
  unfold get_token_holders
  rw [hxe, hye]
  rfl

/-- Concrete instance of the amended C10: arbitrum answers 404 (count
stays 0), base answers 200 with 7 holders (still fetched). -/
theorem get_token_holders_total_on_parseable_witness :
    ∃ d : TokenHolders,
      get_token_holders { status_code := 404, body_holders := none }
        { status_code := 200, body_holders := some 7 } = Except.ok d ∧
      (({ status_code := 404, body_holders := none } :
          HttpResponse).status_code ≠ HTTP_OK → d.arbitrum = 0) ∧
      (({ status_code := 200, body_holders := some 7 } :
          HttpResponse).status_code ≠ HTTP_OK → d.base = 0) ∧
      (∀ h, ({ status_code := 404, body_holders := none } :
          HttpResponse).status_code = HTTP_OK →
        ({ status_code := 404, body_holders := none } :
          HttpResponse).body_holders = some h → d.arbitrum = h) ∧
      (∀ h, ({ status_code := 200, body_holders := some 7 } :
          HttpResponse).status_code = HTTP_OK →
        ({ status_code := 200, body_holders := some 7 } :
          HttpResponse).body_holders = some h → d.base = h) :=
  get_token_holders_total_on_parseable
    { status_code := 404, body_holders := none }
    { status_code := 200, body_holders := some 7 }
    (by decide) (by decide)

end ClaimC10

section ThresholdLemmas

variable {V : Type} [DecidableEq V]

/-- When no value reaches the threshold, the `find?` scan of
`try_conclude` comes up empty. -/
lemma find_below_threshold_eq_none (t : Nat) (c : Collected V)
    (hall : ∀ v, count_value c v < t) :
    c.find? (fun e => t ≤ count_value c e.2) = none := by
  rw [List.find?_eq_none]
  intro e _
  simp [Nat.not_le.mpr (hall e.2)]

/-- When no value reaches the threshold, `try_conclude` is NO_MAJORITY on
a full round and Pending otherwise. -/
lemma try_conclude_below_threshold (t n : Nat) (c : Collected V)
    (hall : ∀ v, count_value c v < t) :
    try_conclude t n c =
      if c.length = n then Outcome.NO_MAJORITY else Outcome.Pending := by
  unfold try_conclude
  rw [find_below_threshold_eq_none t c hall]

/-- Building the collected map from payloads of pairwise-distinct senders
accepts every payload in order. -/
lemma build_collected_eq_map {ps : List (Payload V)}
    (hnod : (ps.map Payload.sender).Nodup) :
    build_collected ps = ps.map (fun p => (p.sender, p.value)) := by
  unfold build_collected
  suffices h : ∀ (c : Collected V), (∀ p ∈ ps, p.sender ∉ c.map Prod.fst) →
      (ps.map Payload.sender).Nodup →
      ps.foldl (fun c p => match add_payload c p with
        | Except.ok c₂ => c₂
        | Except.error _ => c) c = c ++ ps.map (fun p => (p.sender, p.value)) by
    simpa using h [] (by simp) hnod
  clear hnod
  induction ps with
  | nil => intro c _ _; simp
  | cons p ps ih =>
      intro c hfresh hnod
      simp only [List.map_cons, List.nodup_cons] at hnod
      have hlk : c.lookup p.sender = none :=
        (lookup_eq_none_iff _ _).mpr (hfresh p (List.mem_cons_self p ps))
      have hstep : add_payload c p = Except.ok (c ++ [(p.sender, p.value)]) := by
        unfold add_payload
        rw [hlk]
      simp only [List.foldl_cons, hstep]
      rw [ih (c ++ [(p.sender, p.value)]) ?_ hnod.2]
      · simp
      · intro q hq
        simp only [List.map_append, List.map_cons, List.map_nil,
          List.mem_append, List.mem_singleton]
        rintro (hqc | hqp)
        · exact hfresh q (List.mem_cons_of_mem p hq) hqc
        · exact hnod.1 (hqp ▸ List.mem_map_of_mem Payload.sender hq)

/-- Distinct-sender count of value `v` in the built map equals the number
of submitted payloads carrying `v`. -/
lemma count_value_map_eq (ps : List (Payload V)) (v : V) :
    count_value (ps.map (fun p => (p.sender, p.value))) v =
      (ps.filter (fun p => p.value = v)).length := by
  unfold count_value
  rw [List.filter_map]
  simp only [List.length_map]
  rfl

/-- Counts of two distinct values together never exceed the number of
entries (their filters are disjoint). -/
lemma count_value_add_le (c : Collected V) {v w : V} (hvw : v ≠ w) :
    count_value c v + count_value c w ≤ c.length := by
  induction c with
  | nil => simp [count_value]
  | cons e es ih =>
      unfold count_value at ih ⊢
      by_cases h1 : e.2 = v <;> by_cases h2 : e.2 = w
      · exact absurd (h1.symm.trans h2) hvw
      · simp only [List.filter_cons]
        simp [h1, h2, hvw, Ne.symm hvw]
        omega
      · simp only [List.filter_cons]
        simp [h1, h2, hvw, Ne.symm hvw]
        omega
      · simp only [List.filter_cons]
        simp [h1, h2]
        omega

/-- Value of `try_conclude` when the threshold scan finds nothing. -/
lemma try_conclude_of_find_none {t n : Nat} {c : Collected V}
    (hfind : c.find? (fun e => t ≤ count_value c e.2) = none) :
    try_conclude t n c =
      if c.length = n then Outcome.NO_MAJORITY else Outcome.Pending := by
  unfold try_conclude
  rw [hfind]

/-- Value of `try_conclude` when the threshold scan finds an entry. -/
lemma try_conclude_of_find_some {t n : Nat} {c : Collected V} {e : Sender × V}
    (hfind : c.find? (fun e => t ≤ count_value c e.2) = some e) :
    try_conclude t n c = Outcome.DONE e.2 := by
  unfold try_conclude
  rw [hfind]

/-- The DONE-direction characterization: with distinct senders, at most
`n` submissions and a majority threshold (`n < 2t`), the built round
concludes DONE with `v` iff at least `t` senders submitted `v`. -/
lemma try_conclude_done_iff (t n : Nat) (ps : List (Payload V)) (v : V)
    (hnod : (ps.map Payload.sender).Nodup) (hn : ps.length ≤ n)
    (hmaj : n < 2 * t) :
    try_conclude t n (build_collected ps) = Outcome.DONE v ↔
      t ≤ (ps.filter (fun p => p.value = v)).length := by
  rw [build_collected_eq_map hnod]
  have hlen : (ps.map (fun p => (p.sender, p.value))).length = ps.length := by
    simp
  have hcount := count_value_map_eq ps
  have hone : ∀ e : Sender × V,
      t ≤ count_value (ps.map (fun p => (p.sender, p.value))) e.2 →
      t ≤ (ps.filter (fun p => p.value = v)).length → e.2 = v := by
    intro e hte htv
    by_contra hne
    have hsum := count_value_add_le (ps.map (fun p => (p.sender, p.value)))
      (v := v) (w := e.2) (fun hh => hne hh.symm)
    rw [hcount v, hlen] at hsum
    omega
  constructor
  · intro hdone
    rcases hfind : (ps.map (fun p => (p.sender, p.value))).find?
        (fun e => t ≤ count_value (ps.map (fun p => (p.sender, p.value))) e.2)
        with _ | e
    · rw [try_conclude_of_find_none hfind] at hdone
      split at hdone <;> simp at hdone
    · rw [try_conclude_of_find_some hfind] at hdone
      have hpe : t ≤ count_value (ps.map (fun p => (p.sender, p.value))) e.2 := by
        have := List.find?_some hfind
        simpa using this
      have hev : e.2 = v := by injection hdone
      rw [← hev, ← hcount e.2]
      exact hpe
  · intro hcv
    have ht1 : 1 ≤ t := by omega
    have hne : (ps.filter (fun p => p.value = v)) ≠ [] := by
      intro hnil
      rw [hnil] at hcv
      simp at hcv
      omega
    rcases List.exists_mem_of_ne_nil _ hne with ⟨q, hq⟩
    have hqps : q ∈ ps := (List.mem_filter.mp hq).1
    have hqv : q.value = v := by
      have := (List.mem_filter.mp hq).2
      simpa using this
    have hmem : (q.sender, q.value) ∈ ps.map (fun p => (p.sender, p.value)) :=
      List.mem_map_of_mem _ hqps
    have hsat : ∃ e ∈ ps.map (fun p => (p.sender, p.value)),
        (fun e : Sender × V =>
          decide (t ≤ count_value (ps.map (fun p => (p.sender, p.value))) e.2)) e
          = true := by
      refine ⟨(q.sender, q.value), hmem, ?_⟩
      simp only [decide_eq_true_eq]
      show t ≤ count_value (ps.map (fun p => (p.sender, p.value))) q.value
      rw [hqv, hcount v]
      exact hcv
    have hfindsome : ((ps.map (fun p => (p.sender, p.value))).find?
        (fun e => t ≤ count_value (ps.map (fun p => (p.sender, p.value))) e.2)).isSome := by
      rw [List.find?_isSome]
      exact hsat
    rcases Option.isSome_iff_exists.mp hfindsome with ⟨e, hfind⟩
    have hpe : t ≤ count_value (ps.map (fun p => (p.sender, p.value))) e.2 := by
      have := List.find?_some hfind
      simpa using this
    have hev : e.2 = v := hone e hpe hcv
    rw [try_conclude_of_find_some hfind, hev]

end ThresholdLemmas

section ClaimC4

/-- C4: When every participant has submitted (`collected` size equals the
participant count `n`) and no value is shared by at least `threshold`
distinct senders, `try_conclude` returns NO_MAJORITY with the
synchronized data unchanged; when neither the DONE condition nor that
condition holds, it returns Pending, also leaving the data untouched. -/
theorem no_majority_pending_characterization (V : Type) [DecidableEq V]
    (t n : Nat) (c : Collected V) (d : SData V) :
    ((∀ v, count_value c v < t) → c.length = n →
      try_conclude_data t n c d = (Outcome.NO_MAJORITY, d)) ∧
    ((∀ v, count_value c v < t) → c.length ≠ n →
      try_conclude_data t n c d = (Outcome.Pending, d)) := by
  constructor
  · intro hall hfull
    unfold try_conclude_data
    rw [try_conclude_below_threshold t n c hall, if_pos hfull]
  · intro hall hpart
    unfold try_conclude_data
    rw [try_conclude_below_threshold t n c hall, if_neg hpart]

/-- Concrete instance of C4 (Scenario B shape, shrunk): both participants
submitted, values split 1-1 under threshold 2 — NO_MAJORITY with the
data unchanged; with a third expected participant missing, Pending. -/
theorem no_majority_pending_characterization_witness :
    try_conclude_data 2 2 [(0, (0 : Fin 3)), (1, 1)]
      { version := 4, entries := [] } =
      (Outcome.NO_MAJORITY, { version := 4, entries := [] }) ∧
    try_conclude_data 2 3 [(0, (0 : Fin 3)), (1, 1)]
      { version := 4, entries := [] } =
      (Outcome.Pending, { version := 4, entries := [] }) :=
  ⟨(no_majority_pending_characterization (Fin 3) 2 2 [(0, 0), (1, 1)]
      { version := 4, entries := [] }).1 (by decide) rfl,
   (no_majority_pending_characterization (Fin 3) 2 3 [(0, 0), (1, 1)]
      { version := 4, entries := [] }).2 (by decide) (by decide)⟩

end ClaimC4

section ClaimC1

/-- C1 counterexample: the claimed iff fails as stated.  With `t = 1`,
`n = 2` (a threshold not exceeding half the participants) and payloads
`[(0,10), (1,20)]`, one distinct sender submitted `20` yet the round does
not conclude DONE with `20` (it concludes DONE with `10`), and the
arrival order `[(1,20), (0,10)]` yields a different outcome.  Moreover,
with a majority threshold `t = 2`, `n = 3`, a sender that submits `10`
and then `20` makes "two distinct senders submitted 20" true while the
round does not conclude at all. -/
theorem round_done_iff_counterexample :
    (1 ≤ (([⟨0, 10⟩, ⟨1, 20⟩] : List (Payload Nat)).filter
        (fun p => p.value = 20)).length ∧
      try_conclude 1 2 (build_collected ([⟨0, 10⟩, ⟨1, 20⟩] :
        List (Payload Nat))) ≠ Outcome.DONE 20 ∧
      try_conclude 1 2 (build_collected ([⟨1, 20⟩, ⟨0, 10⟩] :
        List (Payload Nat))) ≠
        try_conclude 1 2 (build_collected ([⟨0, 10⟩, ⟨1, 20⟩] :
          List (Payload Nat)))) ∧
    (2 ≤ (([⟨0, 10⟩, ⟨0, 20⟩, ⟨1, 20⟩] : List (Payload Nat)).filter
        (fun p => p.value = 20)).length ∧
      try_conclude 2 3 (build_collected ([⟨0, 10⟩, ⟨0, 20⟩, ⟨1, 20⟩] :
        List (Payload Nat))) ≠ Outcome.DONE 20) := by
  decide

/-- C1 (amended): provided each sender contributes at most one payload in
the submitted multiset, at most `n` participants submit, and the
threshold is a majority one (`n < 2t`), the round concludes DONE with
value `v` iff at least `t` distinct senders submitted payloads with value
`v`, and the outcome is identical for every arrival order of the
payloads. -/
theorem round_done_iff_threshold_order_invariant (V : Type) [DecidableEq V]
    (t n : Nat) (ps ps' : List (Payload V)) (v : V)
    (hnod : (ps.map Payload.sender).Nodup)
    (hn : ps.length ≤ n) (hmaj : n < 2 * t) (hperm : ps'.Perm ps) :
    (try_conclude t n (build_collected ps) = Outcome.DONE v ↔
      t ≤ (ps.filter (fun p => p.value = v)).length) ∧
    try_conclude t n (build_collected ps') =
      try_conclude t n (build_collected ps) := by
  have hnod' : (ps'.map Payload.sender).Nodup :=
    ((hperm.map Payload.sender).nodup_iff).mpr hnod
  have hn' : ps'.length ≤ n := hperm.length_eq ▸ hn
  have hfilters : ∀ w, (ps'.filter (fun p => p.value = w)).length =
      (ps.filter (fun p => p.value = w)).length :=
    fun w => (hperm.filter _).length_eq
  refine ⟨try_conclude_done_iff t n ps v hnod hn hmaj, ?_⟩
  by_cases hex : ∃ w, t ≤ (ps.filter (fun p => p.value = w)).length
  · rcases hex with ⟨w, hw⟩
    rw [(try_conclude_done_iff t n ps w hnod hn hmaj).mpr hw,
      (try_conclude_done_iff t n ps' w hnod' hn' hmaj).mpr
        (by rw [hfilters w]; exact hw)]
  · push_neg at hex
    have hall : ∀ w, count_value (build_collected ps) w < t := by
      intro w
      rw [build_collected_eq_map hnod, count_value_map_eq]
      exact hex w
    have hall' : ∀ w, count_value (build_collected ps') w < t := by
      intro w
      rw [build_collected_eq_map hnod', count_value_map_eq, hfilters w]
      exact hex w
    rw [try_conclude_below_threshold t n _ hall,
      try_conclude_below_threshold t n _ hall']
    have hl : (build_collected ps').length = (build_collected ps).length := by
      rw [build_collected_eq_map hnod, build_collected_eq_map hnod']
      simp [hperm.length_eq]
    rw [hl]

/-- Concrete instance of the amended C1 (Scenario A, n = 4, t = 3):
payloads `[X,X,X,Y]` conclude DONE with `X`, in reversed arrival order
too. -/
theorem round_done_iff_threshold_order_invariant_witness :
    try_conclude 3 4 (build_collected ([⟨0, 0⟩, ⟨1, 0⟩, ⟨2, 0⟩, ⟨3, 1⟩] :
      List (Payload Nat))) = Outcome.DONE 0 ∧
    try_conclude 3 4 (build_collected ([⟨3, 1⟩, ⟨2, 0⟩, ⟨1, 0⟩, ⟨0, 0⟩] :
      List (Payload Nat))) =
      try_conclude 3 4 (build_collected ([⟨0, 0⟩, ⟨1, 0⟩, ⟨2, 0⟩, ⟨3, 1⟩] :
        List (Payload Nat))) :=
  ⟨(round_done_iff_threshold_order_invariant Nat 3 4
      [⟨0, 0⟩, ⟨1, 0⟩, ⟨2, 0⟩, ⟨3, 1⟩] [⟨3, 1⟩, ⟨2, 0⟩, ⟨1, 0⟩, ⟨0, 0⟩] 0
      (by decide) (by decide) (by decide) (by decide)).1.mpr (by decide),
   (round_done_iff_threshold_order_invariant Nat 3 4
      [⟨0, 0⟩, ⟨1, 0⟩, ⟨2, 0⟩, ⟨3, 1⟩] [⟨3, 1⟩, ⟨2, 0⟩, ⟨1, 0⟩, ⟨0, 0⟩] 0
      (by decide) (by decide) (by decide) (by decide)).2⟩

end ClaimC1

section ClaimC7

/-- One deliver step is a function of the pre-state and the payload: the
relational presentation of spec §4.3 admits at most one post-state. -/
lemma deliver_functional {V : Type} [DecidableEq V] {t n : Nat}
    {s s₁ s₂ : SeqState V} {p : Payload V}
    (h1 : Deliver t n s p s₁) (h2 : Deliver t n s p s₂) : s₁ = s₂ := by
  cases h1 <;> cases h2 <;> simp_all

/-- C7: two executions of the round sequence that start from the same
state and deliver the same ordered payload history end in identical
states — in particular identical SynchronizedData contents and identical
sequences of `(round kind, event)` transitions. -/
theorem replay_deterministic (V : Type) [DecidableEq V] (t n : Nat)
    (s s₁ s₂ : SeqState V) (ps : List (Payload V))
    (h1 : Run t n s ps s₁) (h2 : Run t n s ps s₂) :
    s₁ = s₂ ∧ s₁.data = s₂.data ∧ s₁.trace = s₂.trace := by
  suffices h : s₁ = s₂ by
    exact ⟨h, h ▸ rfl, h ▸ rfl⟩
  induction h1 generalizing s₂ with
  | nil => cases h2; rfl
  | cons d1 _ ih =>
      cases h2 with
      | cons d2 r2 =>
          exact ih _ ((deliver_functional d1 d2) ▸ r2)

/-- Concrete instance of C7: two replays of the single-payload history
`[(0,5)]` from the initial state end in the same concluded state. -/
theorem replay_deterministic_witness :
    ({ kind := RoundKind.FinishedCoincapRound, collected := [],
       data := commit { version := 0, entries := [] } [(selection_key, 5)],
       trace := [(RoundKind.coincapRound, Event.DONE)] } : SeqState Nat) =
      { kind := RoundKind.FinishedCoincapRound, collected := [],
        data := commit { version := 0, entries := [] } [(selection_key, 5)],
        trace := [(RoundKind.coincapRound, Event.DONE)] } ∧
    (commit { version := 0, entries := [] } [(selection_key, (5 : Nat))]) =
      (commit { version := 0, entries := [] } [(selection_key, (5 : Nat))]) ∧
    ([(RoundKind.coincapRound, Event.DONE)] :
        List (RoundKind × Event)) = [(RoundKind.coincapRound, Event.DONE)] :=
  replay_deterministic Nat 1 1
    { kind := RoundKind.coincapRound, collected := [],
      data := { version := 0, entries := [] }, trace := [] }
    { kind := RoundKind.FinishedCoincapRound, collected := [],
      data := commit { version := 0, entries := [] } [(selection_key, 5)],
      trace := [(RoundKind.coincapRound, Event.DONE)] }
    { kind := RoundKind.FinishedCoincapRound, collected := [],
      data := commit { version := 0, entries := [] } [(selection_key, 5)],
      trace := [(RoundKind.coincapRound, Event.DONE)] }
    [⟨0, 5⟩]
    (Run.cons
      (show Deliver 1 1
          { kind := RoundKind.coincapRound, collected := [],
            data := { version := 0, entries := [] }, trace := [] }
          ⟨0, 5⟩
          { kind := RoundKind.FinishedCoincapRound, collected := [],
            data := commit { version := 0, entries := [] }
              [(selection_key, 5)],
            trace := [(RoundKind.coincapRound, Event.DONE)] } from
        Deliver.done (by decide) rfl (by decide) rfl)
      Run.nil)
    (Run.cons
      (show Deliver 1 1
          { kind := RoundKind.coincapRound, collected := [],
            data := { version := 0, entries := [] }, trace := [] }
          ⟨0, 5⟩
          { kind := RoundKind.FinishedCoincapRound, collected := [],
            data := commit { version := 0, entries := [] }
              [(selection_key, 5)],
            trace := [(RoundKind.coincapRound, Event.DONE)] } from
        Deliver.done (by decide) rfl (by decide) rfl)
      Run.nil)

end ClaimC7

section ClaimC8

/-- C8: Across a deliver step the SynchronizedData version never
decreases, it strictly increases whenever the round concluded (the trace
grew), every key present before is still present after (commits only add
or overwrite, never drop), and the value agreed by a DONE conclusion is
readable under the round's selection key in the state the next round's
Behaviour reads. -/
theorem sync_data_monotone_persistent (V : Type) [DecidableEq V]
    (t n : Nat) (s s' : SeqState V) (p : Payload V)
    (hd : Deliver t n s p s') :
    s.data.version ≤ s'.data.version ∧
    (s'.trace ≠ s.trace → s.data.version < s'.data.version) ∧
    (∀ k, (s.data.entries.lookup k).isSome →
      (s'.data.entries.lookup k).isSome) ∧
    (∀ (c₂ : Collected V) (v : V), s.kind ∉ final_states →
      add_payload s.collected p = Except.ok c₂ →
      try_conclude t n c₂ = Outcome.DONE v →
      s'.data.entries.lookup selection_key = some v) := by
  cases hd with
  | final hfin =>
      exact ⟨Nat.le_refl _, fun hne => absurd rfl hne,
        fun k hk => hk, fun c₂ v hnf _ _ => absurd hfin hnf⟩
  | rejected hnf herr =>
      refine ⟨Nat.le_refl _, fun hne => absurd rfl hne, fun k hk => hk,
        fun c₂ v _ hok _ => ?_⟩
      rw [herr] at hok
      exact absurd hok (by simp)
  | pending hnf hok hpend =>
      refine ⟨Nat.le_refl _, fun hne => absurd rfl hne, fun k hk => hk,
        fun c₂ v _ hok₂ hdone => ?_⟩
      rw [hok] at hok₂
      have : _ = c₂ := Except.ok.inj hok₂
      rw [this] at hpend
      rw [hpend] at hdone
      exact absurd hdone (by simp)
  | done hnf hok hdone htr =>
      rename_i c₂ v k₂
      refine ⟨Nat.le_succ _, fun _ => Nat.lt_succ_self _, ?_, ?_⟩
      · intro k hk
        show (((selection_key, v) :: s.data.entries).lookup k).isSome
        rw [lookup_cons_eq]
        by_cases hks : k = selection_key <;> simp [hks, hk]
      · intro c₂' v' _ hok' hdone'
        rw [hok] at hok'
        have hc : c₂ = c₂' := Except.ok.inj hok'
        rw [← hc] at hdone'
        rw [hdone] at hdone'
        have hv : v = v' := by injection hdone'
        show ((selection_key, v) :: s.data.entries).lookup selection_key =
          some v'
        rw [lookup_cons_eq, if_pos rfl, hv]
  | no_majority hnf hok hnm htr =>
      rename_i c₂ k₂
      refine ⟨Nat.le_succ _, fun _ => Nat.lt_succ_self _,
        fun k hk => hk, fun c₂' v' _ hok' hdone' => ?_⟩
      rw [hok] at hok'
      have hc : c₂ = c₂' := Except.ok.inj hok'
      rw [← hc] at hdone'
      rw [hnm] at hdone'
      exact absurd hdone' (by simp)

/-- Concrete instance of C8: a DONE conclusion bumps the version from 0
to 1 and the agreed value 5 is readable under the selection key. -/
theorem sync_data_monotone_persistent_witness :
    (commit ({ version := 0, entries := [] } : SData Nat)
        [(selection_key, 5)]).entries.lookup selection_key = some 5 :=
  (sync_data_monotone_persistent Nat 1 1
    { kind := RoundKind.coincapRound, collected := [],
      data := { version := 0, entries := [] }, trace := [] }
    { kind := RoundKind.FinishedCoincapRound, collected := [],
      data := commit { version := 0, entries := [] } [(selection_key, 5)],
      trace := [(RoundKind.coincapRound, Event.DONE)] }
    ⟨0, 5⟩
    (Deliver.done (by decide) rfl (by decide) rfl)).2.2.2
    [(0, 5)] 5 (by decide) rfl (by decide)

end ClaimC8

end LearningService
